import Mathlib

/-!
Verification of the journald native-protocol encoder and transport
(`src/sinks/journald/mod.rs`).

Bytes are modelled as natural numbers (the byte values 0..255); byte strings
as `List Nat`.  The three components of the source — the field-name sanitizer
(`write_field_name`), the value encoder (`write_field_value` with its inner
`write_bytes`), and the per-record send loop (`JournalSink::run_inner`) — are
embedded as executable Lean functions below, translated line by line from the
Rust source.  Panics in the source (`unreachable!`, `.expect(...)`) are
modelled as an aborting result.
-/

/-- Rust `u8::is_ascii_alphabetic`: byte is in                A-Z or a-z. -/
def isAsciiAlphabetic (b : Nat) : Bool :=
  (65 ≤ b && b ≤ 90) || (97 ≤ b && b ≤ 122)

/-- Rust `u8::is_ascii_alphanumeric`: byte is in A-Z, a-z or 0-9. -/
def isAsciiAlphanumeric (b : Nat) : Bool :=
  isAsciiAlphabetic b || (48 ≤ b && b ≤ 57)

/-- Rust `u8::to_ascii_uppercase`: map a-z to A-Z, leave everything else. -/
def toAsciiUppercase (b : Nat) : Nat :=
  if 97 ≤ b && b ≤ 122 then b - 32 else b

/-- The per-byte transformation of the sanitizer loop body: ASCII
alphanumerics are uppercased, every other byte becomes an underscore. -/
def transformByte (b : Nat) : Nat :=
  if isAsciiAlphanumeric b then toAsciiUppercase b else 95

/-- The `for byte in name.iter().take(64)` loop of `write_field_name`
(src/sinks/journald/mod.rs:130-141): push the transformed byte, increment
the `wrote` counter, and break once `wrote` reaches 64. -/
def nameLoop : List Nat → Nat → List Nat
  | [], _ => []
  | b :: rest, wrote =>
      if wrote + 1 ≥ 64 then [transformByte b]
      else transformByte b :: nameLoop rest (wrote + 1)

/-- `write_field_name` (src/sinks/journald/mod.rs:117-142): appends the
sanitized field name to `output`.  Empty names become `EMPTY`; a name whose
first byte is not an ASCII letter gets the prefix `ESC_` (counting 4 toward
the 64-byte budget); then at most the first 64 input bytes are transformed
and emitted until the budget is exhausted. -/
def write_field_name (name output : List Nat) : List Nat :=
  match name with
  | [] => output ++ [69, 77, 80, 84, 89]
  | b :: _ =>
      if ¬ isAsciiAlphabetic b then
        (output ++ [69, 83, 67, 95]) ++ nameLoop (name.take 64) 4
      else
        output ++ nameLoop (name.take 64) 0

/-- The sanitizer as a pure function on the name alone: the bytes that
`write_field_name` appends to an empty buffer. -/
def sanitize (name : List Nat) : List Nat :=
  write_field_name name []

/-- `BufMut::put_u64_le`: the 8 little-endian bytes of a length cast to u64
(lengths are below 2^64, so the cast is lossless and each byte is
`n / 256^i % 256`). -/
def u64le (n : Nat) : List Nat :=
  [n % 256, n / 256 % 256, n / 256 ^ 2 % 256, n / 256 ^ 3 % 256,
   n / 256 ^ 4 % 256, n / 256 ^ 5 % 256, n / 256 ^ 6 % 256, n / 256 ^ 7 % 256]

/-- The inner `write_bytes` of `write_field_value`
(src/sinks/journald/mod.rs:145-155).  Note that the source inspects the
accumulated OUTPUT buffer for a newline, not the value bytes: if the buffer
written so far contains no `\n` it pushes `=`, otherwise it pushes `\n`
followed by the little-endian u64 length of the value; then the value bytes
and a trailing `\n`. -/
def write_bytes (bs output : List Nat) : List Nat :=
  if ¬ output.contains 10 then
    (output ++ [61]) ++ bs ++ [10]
  else
    (output ++ 10 :: u64le bs.length) ++ bs ++ [10]

/-- Rust `i64::to_string` rendered as bytes: decimal digits, with a leading
`-` (byte 45) for negative values. -/
def intToBytes (i : Int) : List Nat :=
  if i < 0 then 45 :: (Nat.toDigits 10 i.natAbs).map Char.toNat
  else (Nat.toDigits 10 i.toNat).map Char.toNat

/-- Rust `bool::to_string` rendered as bytes: `true` or `false`. -/
def boolToBytes (b : Bool) : List Nat :=
  if b then [116, 114, 117, 101] else [102, 97, 108, 115, 101]

/-- The `vrl::value::Value` union matched by `write_field_value`.  `bytes`
and `regex` carry their byte representation (`Bytes` payload,
`regex.as_bytes_slice()`).  The `float` and `timestamp` payloads are carried
as the byte string their Rust `to_string()` rendering produces (f64 and
DateTime display formatting is opaque here; no claim depends on it).  The
`object` and `array` payloads are irrelevant to the encoder (matched with
`_` in the source), so they are omitted. -/
inductive Value where
  | bytes (bs : List Nat)
  | regex (bs : List Nat)
  | integer (i : Int)
  | float (rendered : List Nat)
  | boolean (b : Bool)
  | timestamp (rendered : List Nat)
  | object
  | array
  | null
deriving DecidableEq

/-- Whether the value is a collection (Rust `Value::Object` / `Value::Array`). -/
def Value.isCollection : Value → Bool
  | .object => true
  | .array => true
  | _ => false

/-- `write_field_value` (src/sinks/journald/mod.rs:144-168): dispatch on the
value variant and append via `write_bytes`.  The `Object`/`Array` arms hit
`unreachable!` — a panic — modelled as `none`. -/
def write_field_value (v : Value) (output : List Nat) : Option (List Nat) :=
  match v with
  | .bytes bs => some (write_bytes bs output)
  | .regex bs => some (write_bytes bs output)
  | .integer i => some (write_bytes (intToBytes i) output)
  | .float rendered => some (write_bytes rendered output)
  | .boolean b => some (write_bytes (boolToBytes b) output)
  | .timestamp rendered => some (write_bytes rendered output)
  | .object => none
  | .array => none
  | .null => some (write_bytes [60, 78, 85, 76, 76, 62] output)

/-- A flattened record: the ordered (key, value) pairs produced by
`event.convert_to_fields()`. -/
abbrev Record := List (List Nat × Value)

/-- The `for (k, v) in fields` loop of `run_inner`
(src/sinks/journald/mod.rs:89-92): write each field name then its value
into the buffer; a collection value panics (aborts with `none`). -/
def encodeRecordFields : Record → List Nat → Option (List Nat)
  | [], buffer => some buffer
  | (k, v) :: rest, buffer =>
      (write_field_value v (write_field_name k buffer)).bind (encodeRecordFields rest)

/-- Outcome of `run_inner` on a finite input stream: either the stream was
consumed to the end (`ok`, the source returns `Ok(())`), or a panic
(`unreachable!` on a collection value, or `.expect` on a failed send)
aborted the loop (`panicked`).  In both cases the payload lists the
datagrams that were successfully sent, in order. -/
inductive RunResult where
  | ok (sent : List (List Nat))
  | panicked (sent : List (List Nat))
deriving DecidableEq

/-- `JournalSink::run_inner` (src/sinks/journald/mod.rs:83-101) on a finite
stream of already-flattened records.  `sendFails i` tells whether the i-th
`socket.send_to` call fails; on failure the source panics via
`.expect("Failed to send data to JournalD")`.  The shared buffer is written
per record, sent as one datagram, and cleared (`buffer.clear()`) before the
next record. -/
def run_inner (sendFails : Nat → Bool) (i : Nat) (buffer : List Nat) :
    List Record → RunResult
  | [] => .ok []
  | r :: rest =>
      match encodeRecordFields r buffer with
      | none => .panicked []
      | some buf =>
          if sendFails i then .panicked []
          else
            match run_inner sendFails (i + 1) [] rest with
            | .ok sent => .ok (buf :: sent)
            | .panicked sent => .panicked (buf :: sent)

/-- The byte rendering of a scalar value, per variant, as `write_field_value`
hands it to `write_bytes` (collections, which never reach `write_bytes`, map
to `[]`). -/
def valueBytes : Value → List Nat
  | .bytes bs => bs
  | .regex bs => bs
  | .integer i => intToBytes i
  | .float rendered => rendered
  | .boolean b => boolToBytes b
  | .timestamp rendered => rendered
  | .object => []
  | .array => []
  | .null => [60, 78, 85, 76, 76, 62]

/-- One iteration of the field loop on a scalar field: append the sanitized
name, then the value via `write_bytes`. -/
def encodeField (buffer : List Nat) (kv : List Nat × Value) : List Nat :=
  write_bytes (valueBytes kv.2) (write_field_name kv.1 buffer)

/-- The per-record encoding as a pure fold (what `encodeRecordFields`
computes when every value is scalar), starting from an empty buffer. -/
def encodeRecord (r : Record) : List Nat :=
  r.foldl encodeField []

/-- Modelled from the spec: read a field name from the head of a datagram,
up to the first delimiter, which is either `=` (byte 61, single-line form)
or `\n` (byte 10, length-prefixed form).  Returns the name, the delimiter,
and the remaining bytes; fails if no delimiter occurs. -/
def splitName : List Nat → Option (List Nat × Nat × List Nat)
  | [] => none
  | b :: rest =>
      if b = 61 ∨ b = 10 then some ([], b, rest)
      else (splitName rest).map (fun x => (b :: x.1, x.2.1, x.2.2))

/-- Modelled from the spec: read a single-line value, everything up to the
next `\n`; fails if the buffer holds no `\n`. -/
def takeLine : List Nat → Option (List Nat × List Nat)
  | [] => none
  | b :: rest =>
      if b = 10 then some ([], rest)
      else (takeLine rest).map (fun x => (b :: x.1, x.2))

/-- Little-endian byte list to natural number. -/
def leToNat (l : List Nat) : Nat :=
  l.foldr (fun b acc => acc * 256 + b) 0

/-- Modelled from the spec: the decoder implied by the round-trip property of
section 8 — split a datagram by the two framing rules (`NAME=VALUE\n` and
`NAME\n<len:u64le><bytes>\n`), recovering the (name, value-bytes) pairs in
order.  `fuel` bounds the recursion (the datagram length suffices). -/
def decodeDatagram : Nat → List Nat → Option (List (List Nat × List Nat))
  | _, [] => some []
  | 0, _ => none
  | fuel + 1, buf =>
      match splitName buf with
      | none => none
      | some (name, d, rest) =>
          if d = 61 then
            match takeLine rest with
            | none => none
            | some (value, rest2) =>
                match decodeDatagram fuel rest2 with
                | none => none
                | some tail => some ((name, value) :: tail)
          else
            if rest.length < 8 then none
            else
              let len := leToNat (rest.take 8)
              let body := rest.drop 8
              if body.length < len + 1 then none
              else
                match body.drop len with
                | 10 :: rest3 =>
                    match decodeDatagram fuel rest3 with
                    | none => none
                    | some tail => some ((name, body.take len) :: tail)
                | _ => none

theorem nameLoop_take_map (l : List Nat) : ∀ w, w ≤ 63 →
    nameLoop l w = (l.take (64 - w)).map transformByte := by
  induction l with
  | nil => intro w hw; simp [nameLoop]
  | cons b rest ih =>
      intro w hw
      unfold nameLoop
      split
      · next h =>
          have hw63 : w = 63 := by omega
          subst hw63
          norm_num
      · next h =>
          rw [ih (w + 1) (by omega)]
          have h64 : 64 - w = (64 - (w + 1)) + 1 := by omega
          rw [h64, List.take_succ_cons, List.map_cons]

theorem isAsciiAlphabetic_iff (b : Nat) :
    isAsciiAlphabetic b = true ↔ (65 ≤ b ∧ b ≤ 90) ∨ (97 ≤ b ∧ b ≤ 122) := by
  unfold isAsciiAlphabetic
  simp [Bool.or_eq_true, Bool.and_eq_true, decide_eq_true_eq]

theorem isAsciiAlphanumeric_iff (b : Nat) :
    isAsciiAlphanumeric b = true ↔
      ((65 ≤ b ∧ b ≤ 90) ∨ (97 ≤ b ∧ b ≤ 122)) ∨ (48 ≤ b ∧ b ≤ 57) := by
  unfold isAsciiAlphanumeric
  simp [isAsciiAlphabetic_iff, Bool.or_eq_true, Bool.and_eq_true, decide_eq_true_eq]

theorem transformByte_charset (b : Nat) :
    transformByte b = 95 ∨ (65 ≤ transformByte b ∧ transformByte b ≤ 90) ∨
      (48 ≤ transformByte b ∧ transformByte b ≤ 57) := by
  unfold transformByte
  by_cases hn : isAsciiAlphanumeric b = true
  · rw [if_pos hn]
    rw [isAsciiAlphanumeric_iff] at hn
    unfold toAsciiUppercase
    by_cases h2 : (97 ≤ b && b ≤ 122) = true
    · rw [if_pos h2]
      simp only [Bool.and_eq_true, decide_eq_true_eq] at h2
      omega
    · rw [if_neg h2]
      simp only [Bool.and_eq_true, decide_eq_true_eq, not_and_or, not_le] at h2
      omega
  · rw [if_neg hn]
    left
    rfl

theorem transformByte_alpha (b : Nat) (h : isAsciiAlphabetic b = true) :
    65 ≤ transformByte b ∧ transformByte b ≤ 90 := by
  have hb := (isAsciiAlphabetic_iff b).mp h
  have hn : isAsciiAlphanumeric b = true := by
    rw [isAsciiAlphanumeric_iff]
    exact Or.inl hb
  unfold transformByte
  rw [if_pos hn]
  unfold toAsciiUppercase
  by_cases h2 : (97 ≤ b && b ≤ 122) = true
  · rw [if_pos h2]
    simp only [Bool.and_eq_true, decide_eq_true_eq] at h2
    omega
  · rw [if_neg h2]
    simp only [Bool.and_eq_true, decide_eq_true_eq, not_and_or, not_le] at h2
    omega

theorem sanitize_not_alpha (b : Nat) (rest : List Nat)
    (h : isAsciiAlphabetic b = false) :
    sanitize (b :: rest) = [69, 83, 67, 95] ++ ((b :: rest).take 60).map transformByte := by
  unfold sanitize write_field_name
  simp only [h, Bool.not_false, if_true, Bool.false_eq_true, not_false_iff]
  rw [nameLoop_take_map _ 4 (by omega)]
  norm_num [List.take_take]

theorem sanitize_alpha (b : Nat) (rest : List Nat)
    (h : isAsciiAlphabetic b = true) :
    sanitize (b :: rest) = ((b :: rest).take 64).map transformByte := by
  unfold sanitize write_field_name
  simp only [h, not_true, if_false, Bool.true_eq_false]
  rw [nameLoop_take_map _ 0 (by omega)]
  norm_num [List.take_take]

/-- C7: `sanitize` is total and always returns a name of 1 to 64 bytes drawn
from `[A-Z0-9_]`, never starting with a digit; the empty input yields the
literal `EMPTY`. -/
theorem c7_sanitize_total_valid :
    sanitize [] = [69, 77, 80, 84, 89] ∧
    ∀ name : List Nat,
      1 ≤ (sanitize name).length ∧ (sanitize name).length ≤ 64 ∧
      (∀ b ∈ sanitize name,
        b = 95 ∨ (65 ≤ b ∧ b ≤ 90) ∨ (48 ≤ b ∧ b ≤ 57)) ∧
      (∀ b, (sanitize name).head? = some b → ¬ (48 ≤ b ∧ b ≤ 57)) := by
  refine ⟨by decide, fun name => ?_⟩
  match name with
  | [] => exact ⟨by decide, by decide, by decide, by decide⟩
  | b :: rest =>
      by_cases h : isAsciiAlphabetic b = true
      · rw [sanitize_alpha b rest h]
        refine ⟨?_, ?_, ?_, ?_⟩
        · simp only [List.length_map, List.length_take, List.length_cons]
          omega
        · simp only [List.length_map, List.length_take, List.length_cons]
          omega
        · intro x hx
          rw [List.mem_map] at hx
          obtain ⟨y, _, rfl⟩ := hx
          exact transformByte_charset y
        · have h64 : (64 : Nat) = 63 + 1 := by norm_num
          rw [h64, List.take_succ_cons, List.map_cons]
          intro x hx
          simp only [List.head?_cons, Option.some.injEq] at hx
          subst hx
          have := transformByte_alpha b h
          omega
      · have hf : isAsciiAlphabetic b = false := by
          cases hb : isAsciiAlphabetic b
          · rfl
          · exact absurd hb h
        rw [sanitize_not_alpha b rest hf]
        refine ⟨?_, ?_, ?_, ?_⟩
        · simp only [List.length_append, List.length_map, List.length_take,
            List.length_cons, List.length_nil]
          omega
        · simp only [List.length_append, List.length_map, List.length_take,
            List.length_cons, List.length_nil]
          omega
        · intro x hx
          simp only [List.mem_append, List.mem_map, List.mem_cons,
            List.not_mem_nil, or_false] at hx
          rcases hx with hx | ⟨y, _, rfl⟩
          · omega
          · exact transformByte_charset y
        · intro x hx
          simp only [List.cons_append, List.head?_cons, Option.some.injEq] at hx
          omega

theorem c7_sanitize_total_valid_witness :
    sanitize [] = [69, 77, 80, 84, 89] ∧ (sanitize [49]).length ≤ 64 :=
  ⟨c7_sanitize_total_valid.1, (c7_sanitize_total_valid.2 [49]).2.1⟩

/-- C8: a non-empty name whose first byte is not an ASCII letter sanitizes
to the 4-byte prefix `ESC_` followed by the transformed input bytes within
the remaining 60-byte budget, with total length at most 64. -/
theorem c8_escape_rule (name : List Nat) (h1 : name ≠ [])
    (h2 : isAsciiAlphabetic (name.headD 0) = false) :
    sanitize name = [69, 83, 67, 95] ++ (name.take 60).map transformByte ∧
    (sanitize name).length ≤ 64 := by
  match name, h1 with
  | b :: rest, _ =>
      simp only [List.headD_cons] at h2
      refine ⟨sanitize_not_alpha b rest h2, ?_⟩
      rw [sanitize_not_alpha b rest h2]
      simp only [List.length_append, List.length_map, List.length_take,
        List.length_cons, List.length_nil]
      omega

theorem c8_escape_rule_witness :
    ([49, 98, 97, 100] ≠ ([] : List Nat)) ∧
    (isAsciiAlphabetic ([49, 98, 97, 100].headD 0) = false) ∧
    sanitize [49, 98, 97, 100] =
      [69, 83, 67, 95] ++ ([49, 98, 97, 100].take 60).map transformByte ∧
    (sanitize [49, 98, 97, 100]).length ≤ 64 ∧
    sanitize [49, 98, 97, 100] = [69, 83, 67, 95, 49, 66, 65, 68] :=
  ⟨by decide, by decide, (c8_escape_rule _ (by decide) (by decide)).1,
   (c8_escape_rule _ (by decide) (by decide)).2, by decide⟩

theorem write_field_value_scalar (v : Value) (h : v.isCollection = false)
    (output : List Nat) :
    write_field_value v output = some (write_bytes (valueBytes v) output) := by
  cases v
  case bytes bs => rfl
  case regex bs => rfl
  case integer i => rfl
  case float r => rfl
  case boolean b => rfl
  case timestamp r => rfl
  case object => exact absurd h (by simp [Value.isCollection])
  case array => exact absurd h (by simp [Value.isCollection])
  case null => rfl

theorem encodeRecordFields_scalar (r : Record) :
    ∀ buffer, (∀ kv ∈ r, kv.2.isCollection = false) →
    encodeRecordFields r buffer = some (r.foldl encodeField buffer) := by
  induction r with
  | nil =>
      intro buffer _
      rfl
  | cons kv rest ih =>
      intro buffer h
      obtain ⟨k, v⟩ := kv
      have hv : Value.isCollection v = false := h (k, v) (List.mem_cons_self _ _)
      unfold encodeRecordFields
      rw [write_field_value_scalar v hv, Option.some_bind,
        ih _ (fun kv hkv => h kv (List.mem_cons_of_mem _ hkv)), List.foldl_cons]
      rfl

theorem run_inner_all_ok (records : List Record) :
    ∀ i, (∀ r ∈ records, ∀ kv ∈ r, kv.2.isCollection = false) →
    run_inner (fun _ => false) i [] records = .ok (records.map encodeRecord) := by
  induction records with
  | nil =>
      intro i _
      rfl
  | cons r rest ih =>
      intro i h
      unfold run_inner
      rw [encodeRecordFields_scalar r [] (h r (List.mem_cons_self _ _)),
        ih (i + 1) (fun r hr => h r (List.mem_cons_of_mem _ hr))]
      rfl

/-- C9: with every record made of scalar fields and every send succeeding,
`run_inner` sends exactly one datagram per record, in order, and each
datagram is the encoding of that record alone starting from an empty buffer
(the shared buffer is cleared after every send), so no byte of an earlier
record leaks into a later datagram and no two records share a datagram. -/
theorem c9_one_datagram_per_record (records : List Record)
    (h : ∀ r ∈ records, ∀ kv ∈ r, kv.2.isCollection = false) :
    run_inner (fun _ => false) 0 [] records = .ok (records.map encodeRecord) :=
  run_inner_all_ok records 0 h

theorem c9_one_datagram_per_record_witness :
    (∀ r ∈ [[([97], Value.bytes [120])], [([98], Value.bytes [121])]],
      ∀ kv ∈ r, kv.2.isCollection = false) ∧
    run_inner (fun _ => false) 0 []
        [[([97], Value.bytes [120])], [([98], Value.bytes [121])]] =
      .ok ([[([97], Value.bytes [120])], [([98], Value.bytes [121])]].map encodeRecord) :=
  ⟨by decide, c9_one_datagram_per_record _ (by decide)⟩

/-- C10: a regex value is encoded exactly like a raw-bytes value carrying the
regex's byte representation, and the encoder is total on it (no invariant
violation): the `Value::Regex` arm calls the same `write_bytes` as
`Value::Bytes`. -/
theorem c10_regex_encoded_as_bytes (bs output : List Nat) :
    write_field_value (.regex bs) output = write_field_value (.bytes bs) output ∧
    (write_field_value (.regex bs) output).isSome = true :=
  ⟨rfl, rfl⟩

/-- C1 (code bug): `write_bytes` picks the framing by scanning the shared
OUTPUT buffer for `\n` instead of the value bytes.  On the record
`{Message: "hello", Count: 3}` the first field ends with `\n`, so the
second value `3` — which contains no newline — is emitted length-prefixed:
the buffer is `MESSAGE=hello\nCOUNT\n<u64le 1>3\n`, not the claimed
`MESSAGE=hello\nCOUNT=3\n`. -/
theorem c1_framing_reads_buffer_not_value :
    encodeRecordFields
        [([77, 101, 115, 115, 97, 103, 101], .bytes [104, 101, 108, 108, 111]),
         ([67, 111, 117, 110, 116], .integer 3)] [] =
      some [77, 69, 83, 83, 65, 71, 69, 61, 104, 101, 108, 108, 111, 10,
            67, 79, 85, 78, 84, 10, 1, 0, 0, 0, 0, 0, 0, 0, 51, 10] ∧
    encodeRecordFields
        [([77, 101, 115, 115, 97, 103, 101], .bytes [104, 101, 108, 108, 111]),
         ([67, 111, 117, 110, 116], .integer 3)] [] ≠
      some [77, 69, 83, 83, 65, 71, 69, 61, 104, 101, 108, 108, 111, 10,
            67, 79, 85, 78, 84, 61, 51, 10] := by
  constructor
  · decide
  · decide

/-- C2 (code bug): for the first field the buffer holds only the sanitized
name, which never contains `\n`, so a value WITH embedded newlines is still
emitted in single-line form.  `{msg: "line1\nline2"}` encodes to
`MSG=line1\nline2\n` instead of the claimed
`MSG\n<u64le 11>line1\nline2\n`. -/
theorem c2_newline_value_not_length_prefixed :
    encodeRecordFields
        [([109, 115, 103],
          .bytes [108, 105, 110, 101, 49, 10, 108, 105, 110, 101, 50])] [] =
      some [77, 83, 71, 61, 108, 105, 110, 101, 49, 10,
            108, 105, 110, 101, 50, 10] ∧
    encodeRecordFields
        [([109, 115, 103],
          .bytes [108, 105, 110, 101, 49, 10, 108, 105, 110, 101, 50])] [] ≠
      some [77, 83, 71, 10, 11, 0, 0, 0, 0, 0, 0, 0,
            108, 105, 110, 101, 49, 10, 108, 105, 110, 101, 50, 10] := by
  constructor
  · decide
  · decide

/-- C3 (code bug): the datagram the code produces for
`{msg: "line1\nline2"}` does not decode back to the original pair under the
two framing rules — the spec decoder reads `MSG=line1\n` as a complete
single-line field and then chokes on the leftover `line2\n`, so the
round-trip fails. -/
theorem c3_roundtrip_fails :
    encodeRecordFields
        [([109, 115, 103],
          .bytes [108, 105, 110, 101, 49, 10, 108, 105, 110, 101, 50])] [] =
      some [77, 83, 71, 61, 108, 105, 110, 101, 49, 10,
            108, 105, 110, 101, 50, 10] ∧
    decodeDatagram 16
        [77, 83, 71, 61, 108, 105, 110, 101, 49, 10,
         108, 105, 110, 101, 50, 10] = none ∧
    decodeDatagram 16
        [77, 83, 71, 61, 108, 105, 110, 101, 49, 10,
         108, 105, 110, 101, 50, 10] ≠
      some [([77, 83, 71],
             [108, 105, 110, 101, 49, 10, 108, 105, 110, 101, 50])] := by
  refine ⟨by decide, by decide, by decide⟩

/-- C4 (code bug): a failed `send_to` panics through
`.expect("Failed to send data to JournalD")`, killing the whole transport.
With two well-formed records and a transient failure on the first send,
nothing is sent and the second record is never processed, while with no
failure both records go out — so a single per-record send error terminates
the stream instead of being reported and skipped. -/
theorem c4_send_failure_terminates_transport :
    run_inner (fun i => i == 0) 0 []
        [[([97], Value.bytes [120])], [([98], Value.bytes [121])]] =
      .panicked [] ∧
    run_inner (fun _ => false) 0 []
        [[([97], Value.bytes [120])], [([98], Value.bytes [121])]] =
      .ok [[65, 61, 120, 10], [66, 61, 121, 10]] := by
  constructor
  · decide
  · decide

/-- C5 (code bug): `run_inner` contains no size check whatsoever — a record
whose single value is `n` bytes long is assembled and sent as one datagram
for EVERY `n`, so no maximum encoded-record size is enforced and no
size-exceeded error exists in the code. -/
theorem c5_no_size_limit (n : Nat) :
    run_inner (fun _ => false) 0 []
        [[([107], Value.bytes (List.replicate n 97))]] =
      .ok [75 :: 61 :: (List.replicate n 97 ++ [10])] := by
  have hwb : write_bytes (List.replicate n 97) (write_field_name [107] []) =
      75 :: 61 :: (List.replicate n 97 ++ [10]) := by
    have hname : write_field_name [107] [] = [75] := by decide
    rw [hname]
    unfold write_bytes
    rw [if_pos (by decide)]
    rfl
  simp [run_inner, encodeRecordFields, write_field_value, hwb]

theorem c5_no_size_limit_witness :
    run_inner (fun _ => false) 0 []
        [[([107], Value.bytes (List.replicate 3 97))]] =
      .ok [75 :: 61 :: (List.replicate 3 97 ++ [10])] :=
  c5_no_size_limit 3

/-- C6 (code bug): a collection value hits `unreachable!`, a panic that
aborts the whole loop.  With a first record holding an array value and a
second well-formed record, nothing is ever sent — the offending record does
not fail alone; the entire transport dies and the next record is lost. -/
theorem c6_collection_panic_terminates_transport :
    write_field_value Value.array [97] = none ∧
    write_field_value Value.object [97] = none ∧
    run_inner (fun _ => false) 0 []
        [[([97], Value.array)], [([98], Value.bytes [120])]] =
      .panicked [] := by
  refine ⟨rfl, rfl, by decide⟩
